import Mathlib

/-!
Shallow embedding of the TMC2209 UART wire-protocol core (crate `tmc2209`):
the fixed-size datagram codec (`src/datagram.rs`), the streaming response
parser (`ResponseReader`), the register address table (`src/registers/mod.rs`),
the error taxonomy (`src/error.rs`), and the blocking transaction engine
(`src/driver.rs`).

Bytes are embedded as `Nat` values (< 256 where it matters), `[u8; N]` buffers
as `List Nat`, and fallible Rust functions as `Except Error _`.  The UART
transport (`embedded_io`, an external crate) is modelled as a deterministic
byte queue.
-/

set_option maxRecDepth 10000

/-- Sync byte used in all TMC2209 datagrams (`datagram.rs`: `SYNC`). -/
def SYNC : Nat := 0x05

/-- Master address used in read responses (`datagram.rs`: `MASTER_ADDR`). -/
def MASTER_ADDR : Nat := 0xFF

/-- Write bit OR'd with the register address for write requests
(`datagram.rs`: `WRITE_BIT`). -/
def WRITE_BIT : Nat := 0x80

/-- Address mask, 7 bits (`datagram.rs`: `ADDRESS_MASK`). -/
def ADDRESS_MASK : Nat := 0x7F

namespace crc

/-- Modelled from the spec: the crate declares `pub mod crc;` but `crc.rs` is
not under `src/`; the spec treats the checksum as an external oracle with
contract `compute(bytes) -> byte` / `verify(bytes_with_trailing_checksum) ->
bool` ("deterministic single-byte integrity function").  We model it as the
TMC2209 datasheet CRC8 (polynomial `x^8 + x^2 + x + 1`, i.e. `0x07`, data
bits processed LSB first, zero initial value), which is the concrete
algorithm the crate's protocol requires.  `crcBitStep` is one bit iteration
of the inner loop; the state `c` is an 8-bit value. -/
def crcBitStep (c b : Nat) : Nat :=
  if ((c >>> 7) ^^^ (b &&& 1)) ≠ 0 then ((c <<< 1) &&& 0xFF) ^^^ 0x07
  else (c <<< 1) &&& 0xFF

/-- Modelled from the spec: `n` bit iterations of the CRC8 inner loop,
shifting the data byte right after each bit (see `crcBitStep`). -/
def crcBits : Nat → Nat → Nat → Nat
  | 0, c, _ => c
  | n + 1, c, b => crcBits n (crcBitStep c b) (b >>> 1)

/-- Modelled from the spec: absorb one data byte into the CRC8 state
(8 bit iterations, LSB first). -/
def crcByteStep (c b : Nat) : Nat := crcBits 8 c b

/-- Modelled from the spec: the checksum oracle's `compute(bytes) -> byte`,
folding the CRC8 byte step over the message from a zero initial state. -/
def compute (bytes : List Nat) : Nat := bytes.foldl crcByteStep 0

/-- Modelled from the spec: the checksum oracle's
`verify(bytes_including_trailing_checksum) -> bool`: the CRC of all bytes but
the last must equal the last byte. -/
def verify (bytes : List Nat) : Bool :=
  compute (bytes.take (bytes.length - 1)) == bytes.getD (bytes.length - 1) 0

end crc

/-- Errors that can occur during TMC2209 communication (`src/error.rs`,
`enum Error<E>`).  The transport error payload `E` is modelled as `Nat`. -/
inductive Error where
  | Uart : Nat → Error
  | CrcMismatch : Error
  | InvalidSync : Error
  | InvalidMasterAddress : Error
  | AddressMismatch : (expected : Nat) → (actual : Nat) → Error
  | UnknownAddress : Nat → Error
  | InvalidSlaveAddress : Nat → Error
  | BufferTooSmall : Error
  | NoResponse : Error
deriving DecidableEq, Repr

/-- Big-endian byte decomposition of a `u32` (Rust `u32::to_be_bytes`);
the argument is a value below `2^32`. -/
def u32_to_be_bytes (d : Nat) : List Nat :=
  [d / 16777216 % 256, d / 65536 % 256, d / 256 % 256, d % 256]

/-- Big-endian byte recomposition of a `u32` (Rust `u32::from_be_bytes`). -/
def u32_from_be_bytes (b0 b1 b2 b3 : Nat) : Nat :=
  ((b0 * 256 + b1) * 256 + b2) * 256 + b3

/-- Read request datagram, 4 bytes (`datagram.rs`: `struct ReadRequest`). -/
structure ReadRequest where
  bytes : List Nat
deriving DecidableEq, Repr

namespace ReadRequest

/-- Length of a read request in bytes (`ReadRequest::LEN`). -/
def LEN : Nat := 4

/-- Construction of a read request for a typed register address
(`ReadRequest::new`); the `Address` argument appears here as its `u8` code. -/
def new (slave_addr reg_addr : Nat) : ReadRequest :=
  let head := [SYNC, slave_addr, reg_addr]
  ⟨head ++ [crc.compute head]⟩

/-- Construction of a read request from a raw register address
(`ReadRequest::from_raw_addr`); the address is masked to 7 bits. -/
def from_raw_addr (slave_addr reg_addr : Nat) : ReadRequest :=
  let head := [SYNC, slave_addr, reg_addr &&& ADDRESS_MASK]
  ⟨head ++ [crc.compute head]⟩

/-- Slave address accessor (`ReadRequest::slave_addr`): byte 1. -/
def slave_addr (r : ReadRequest) : Nat := r.bytes.getD 1 0

/-- Register address accessor (`ReadRequest::reg_addr`): byte 2. -/
def reg_addr (r : ReadRequest) : Nat := r.bytes.getD 2 0

end ReadRequest

/-- Write request datagram, 8 bytes (`datagram.rs`: `struct WriteRequest`). -/
structure WriteRequest where
  bytes : List Nat
deriving DecidableEq, Repr

namespace WriteRequest

/-- Length of a write request in bytes (`WriteRequest::LEN`). -/
def LEN : Nat := 8

/-- Construction of a write request from raw address and data
(`WriteRequest::from_raw`): byte 2 is the masked register address OR'd with
the write bit, bytes 3..6 are the data big-endian, byte 7 the CRC of
bytes 0..6. -/
def from_raw (slave_addr reg_addr data : Nat) : WriteRequest :=
  let data_bytes := u32_to_be_bytes data
  let head := [SYNC, slave_addr, (reg_addr &&& ADDRESS_MASK) ||| WRITE_BIT] ++ data_bytes
  ⟨head ++ [crc.compute head]⟩

/-- Construction for a typed register address (`WriteRequest::new`), which
just forwards the address code to `from_raw`. -/
def new (slave_addr reg_addr data : Nat) : WriteRequest :=
  from_raw slave_addr reg_addr data

/-- Slave address accessor (`WriteRequest::slave_addr`): byte 1. -/
def slave_addr (w : WriteRequest) : Nat := w.bytes.getD 1 0

/-- Register address accessor without the write bit (`WriteRequest::reg_addr`):
byte 2 masked to 7 bits. -/
def reg_addr (w : WriteRequest) : Nat := w.bytes.getD 2 0 &&& ADDRESS_MASK

/-- Data accessor (`WriteRequest::data`): bytes 3..6 big-endian. -/
def data (w : WriteRequest) : Nat :=
  u32_from_be_bytes (w.bytes.getD 3 0) (w.bytes.getD 4 0) (w.bytes.getD 5 0) (w.bytes.getD 6 0)

end WriteRequest

/-- Read response datagram, 8 bytes (`datagram.rs`: `struct ReadResponse`). -/
structure ReadResponse where
  bytes : List Nat
deriving DecidableEq, Repr

namespace ReadResponse

/-- Length of a read response in bytes (`ReadResponse::LEN`). -/
def LEN : Nat := 8

/-- Validation of the response structure (`ReadResponse::validate`): sync
byte, then master address, then CRC, short-circuiting on the first failure. -/
def validate (r : ReadResponse) : Except Error Unit :=
  if r.bytes.getD 0 0 ≠ SYNC then .error .InvalidSync
  else if r.bytes.getD 1 0 ≠ MASTER_ADDR then .error .InvalidMasterAddress
  else if ¬ crc.verify r.bytes then .error .CrcMismatch
  else .ok ()

/-- Fixed-size decode (`ReadResponse::from_bytes`): wrap the 8 bytes and
validate, propagating the validation error. -/
def from_bytes (bytes : List Nat) : Except Error ReadResponse :=
  let response : ReadResponse := ⟨bytes⟩
  match response.validate with
  | .error e => .error e
  | .ok _ => .ok response

/-- Slice decode (`ReadResponse::from_slice`): fails with `BufferTooSmall` on
fewer than 8 bytes, otherwise copies exactly the first 8 bytes and delegates
to `from_bytes`. -/
def from_slice (slice : List Nat) : Except Error ReadResponse :=
  if slice.length < LEN then .error .BufferTooSmall
  else from_bytes (slice.take LEN)

/-- Register address accessor (`ReadResponse::reg_addr`): byte 2. -/
def reg_addr (r : ReadResponse) : Nat := r.bytes.getD 2 0

/-- Data accessor (`ReadResponse::data`): bytes 3..6 big-endian. -/
def data (r : ReadResponse) : Nat :=
  u32_from_be_bytes (r.bytes.getD 3 0) (r.bytes.getD 4 0) (r.bytes.getD 5 0) (r.bytes.getD 6 0)

/-- CRC validity accessor (`ReadResponse::crc_valid`). -/
def crc_valid (r : ReadResponse) : Bool := crc.verify r.bytes

end ReadResponse

/-- TMC2209 register addresses (`src/registers/mod.rs`: `enum Address`). -/
inductive Address where
  | Gconf | Gstat | Ifcnt | Slaveconf | OtpProg | OtpRead | Ioin | FactoryConf
  | IholdIrun | Tpowerdown | Tstep | Tpwmthrs | Tcoolthrs | Vactual
  | Sgthrs | SgResult | Coolconf
  | Mscnt | Mscuract | Chopconf | DrvStatus | Pwmconf | PwmScale | PwmAuto
deriving DecidableEq, Repr, Fintype

namespace Address

/-- Discriminant values of `enum Address` (`#[repr(u8)]`, Rust `as u8` /
`Address::as_u8`). -/
def as_u8 : Address → Nat
  | .Gconf => 0x00 | .Gstat => 0x01 | .Ifcnt => 0x02 | .Slaveconf => 0x03
  | .OtpProg => 0x04 | .OtpRead => 0x05 | .Ioin => 0x06 | .FactoryConf => 0x07
  | .IholdIrun => 0x10 | .Tpowerdown => 0x11 | .Tstep => 0x12
  | .Tpwmthrs => 0x13 | .Tcoolthrs => 0x14 | .Vactual => 0x22
  | .Sgthrs => 0x40 | .SgResult => 0x41 | .Coolconf => 0x42
  | .Mscnt => 0x6A | .Mscuract => 0x6B | .Chopconf => 0x6C
  | .DrvStatus => 0x6F | .Pwmconf => 0x70 | .PwmScale => 0x71 | .PwmAuto => 0x72

/-- Conversion of a raw byte to a known register address
(`Address::from_u8`): `none` for bytes outside the known set. -/
def from_u8 (value : Nat) : Option Address :=
  match value with
  | 0x00 => some .Gconf
  | 0x01 => some .Gstat
  | 0x02 => some .Ifcnt
  | 0x03 => some .Slaveconf
  | 0x04 => some .OtpProg
  | 0x05 => some .OtpRead
  | 0x06 => some .Ioin
  | 0x07 => some .FactoryConf
  | 0x10 => some .IholdIrun
  | 0x11 => some .Tpowerdown
  | 0x12 => some .Tstep
  | 0x13 => some .Tpwmthrs
  | 0x14 => some .Tcoolthrs
  | 0x22 => some .Vactual
  | 0x40 => some .Sgthrs
  | 0x41 => some .SgResult
  | 0x42 => some .Coolconf
  | 0x6A => some .Mscnt
  | 0x6B => some .Mscuract
  | 0x6C => some .Chopconf
  | 0x6F => some .DrvStatus
  | 0x70 => some .Pwmconf
  | 0x71 => some .PwmScale
  | 0x72 => some .PwmAuto
  | _ => none

/-- Readability test (`Address::is_readable`). -/
def is_readable : Address → Bool
  | .Gconf | .Gstat | .Ifcnt | .OtpRead | .Ioin | .FactoryConf | .Tstep
  | .SgResult | .Mscnt | .Mscuract | .Chopconf | .DrvStatus | .Pwmconf
  | .PwmScale | .PwmAuto => true
  | _ => false

/-- Writability test (`Address::is_writable`). -/
def is_writable : Address → Bool
  | .Gconf | .Gstat | .Slaveconf | .OtpProg | .FactoryConf | .IholdIrun
  | .Tpowerdown | .Tpwmthrs | .Tcoolthrs | .Vactual | .Sgthrs | .Coolconf
  | .Chopconf | .Pwmconf => true
  | _ => false

end Address

deriving instance DecidableEq for Except

/-- Raw byte codes of the known register address set (the 24 discriminants of
`enum Address`). -/
def knownAddressCodes : List Nat :=
  [0x00, 0x01, 0x02, 0x03, 0x04, 0x05, 0x06, 0x07, 0x10, 0x11, 0x12, 0x13,
   0x14, 0x22, 0x40, 0x41, 0x42, 0x6A, 0x6B, 0x6C, 0x6F, 0x70, 0x71, 0x72]

/-- Sample well-formed read response frame (register 0, data 0) with a valid
trailing checksum, used to instantiate theorems at a concrete input. -/
def sampleFrame : List Nat :=
  [5, 255, 0, 0, 0, 0, 0] ++ [crc.compute [5, 255, 0, 0, 0, 0, 0]]

/-- Flip bit `j` (0-based) of byte `i` of a byte buffer, leaving every other
byte unchanged — the fault-injection operation of the checksum-sensitivity
claim. -/
def flipBit (l : List Nat) (i j : Nat) : List Nat :=
  l.set i (l.getD i 0 ^^^ (1 <<< j))

/-- Response reader for non-blocking/streaming response parsing
(`datagram.rs`: `struct ResponseReader`): a cursor `index` into the 8-byte
accumulation `buffer`. -/
structure ResponseReader where
  index : Nat
  buffer : List Nat
deriving DecidableEq, Repr

/-- Construction of a fresh reader (`ResponseReader::new`, i.e.
`Default::default()`: cursor 0, zeroed buffer). -/
def ResponseReader.new : ResponseReader := ⟨0, List.replicate 8 0⟩

/-- Reader reset (`ResponseReader::reset`): cursor back to 0, buffer
untouched. -/
def ResponseReader.reset (r : ResponseReader) : ResponseReader := ⟨0, r.buffer⟩

/-- Loop body of `ResponseReader::feed`, recursing on the unconsumed input;
`index` and `buffer` are the reader state and the returned `Nat` is the
number of consumed bytes.  In the source, the `Seeking-Source` mismatch arm
(`self.index = 0; continue`) re-examines the same byte at cursor 0 without
consuming it; that single loop iteration is inlined here (the inner
`b = SYNC` test of the `index = 1` branch), so every recursive call consumes
exactly one byte of input. -/
def feedAux (index : Nat) (buffer : List Nat) (bytes : List Nat) :
    ResponseReader × Nat × Option (Except Error ReadResponse) :=
  if index = 0 then
    match bytes with
    | [] => (⟨index, buffer⟩, 0, none)
    | b :: rest =>
      if b = SYNC then
        let (r, n, out) := feedAux 1 (buffer.set 0 SYNC) rest
        (r, n + 1, out)
      else
        let (r, n, out) := feedAux 0 buffer rest
        (r, n + 1, out)
  else if index = 1 then
    match bytes with
    | [] => (⟨index, buffer⟩, 0, none)
    | b :: rest =>
      if b = MASTER_ADDR then
        let (r, n, out) := feedAux 2 (buffer.set 1 MASTER_ADDR) rest
        (r, n + 1, out)
      else if b = SYNC then
        let (r, n, out) := feedAux 1 (buffer.set 0 SYNC) rest
        (r, n + 1, out)
      else
        let (r, n, out) := feedAux 0 buffer rest
        (r, n + 1, out)
  else
    let needed := 8 - index
    let available := min bytes.length needed
    let buffer2 := buffer.take index ++ bytes.take available ++ buffer.drop (index + available)
    let index2 := index + available
    if index2 = 8 then (⟨0, buffer2⟩, available, some (ReadResponse.from_bytes buffer2))
    else (⟨index2, buffer2⟩, available, none)

/-- Feed bytes to the reader and attempt to parse a response
(`ResponseReader::feed`): returns the updated reader, the number of bytes
consumed, and an outcome when a complete 8-byte candidate was accumulated. -/
def ResponseReader.feed (r : ResponseReader) (bytes : List Nat) :
    ResponseReader × Nat × Option (Except Error ReadResponse) :=
  feedAux r.index r.buffer bytes

/-- Buffered byte count accessor (`ResponseReader::buffered`). -/
def ResponseReader.buffered (r : ResponseReader) : Nat := r.index

/-- Sequential driving of `ResponseReader::feed` over a list of input
fragments, as a caller would: feed each fragment in turn, summing the
consumed counts, and stop at the first call that reports an outcome.  This
is the claim's "sequence of feed calls over a split input", not a function
of the source. -/
def feedMany (r : ResponseReader) :
    List (List Nat) → ResponseReader × Nat × Option (Except Error ReadResponse)
  | [] => (r, 0, none)
  | c :: cs =>
    match r.feed c with
    | (r1, n, some out) => (r1, n, some out)
    | (r1, n, none) =>
      let (r2, m, out) := feedMany r1 cs
      (r2, n + m, out)

/-- Composition shape of two successive `feed` calls: if the first call
already reported an outcome its result stands, otherwise the second input is
fed from the state the first call left, with consumed counts added.  Proof
vocabulary for the fragmentation-invariance claim. -/
def feedComp (p : ResponseReader × Nat × Option (Except Error ReadResponse))
    (cs : List Nat) : ResponseReader × Nat × Option (Except Error ReadResponse) :=
  match p with
  | (r, n, some o) => (r, n, some o)
  | (r, n, none) =>
    ((feedAux r.index r.buffer cs).1, n + (feedAux r.index r.buffer cs).2.1,
      (feedAux r.index r.buffer cs).2.2)

/-- Byte-queue model of the UART transport (the peripheral type `U` comes
from the external `embedded_io` crate): `rx` is the byte stream the device
will deliver and `tx` accumulates transmitted bytes.  Writes and flushes
always succeed, and a read delivers as many of the requested bytes as are
queued. -/
structure Uart where
  rx : List Nat
  tx : List Nat
deriving DecidableEq, Repr

/-- Transport write (`embedded_io::Write::write_all` on the queue model). -/
def Uart.write_all (u : Uart) (bytes : List Nat) : Uart := ⟨u.rx, u.tx ++ bytes⟩

/-- Transport flush (`embedded_io::Write::flush`): a no-op on the queue
model. -/
def Uart.flush (u : Uart) : Uart := u

/-- Model of the `Tmc2209::read_exact` loop (`driver.rs`): keep reading until
`n` bytes are collected.  On the queue transport this succeeds with exactly
the first `n` queued bytes when at least `n` are queued; otherwise the queue
drains and an iteration reads 0 bytes, which the source reports as
`Error::NoResponse`. -/
def Uart.read_exact (u : Uart) (n : Nat) : Except Error (List Nat × Uart) :=
  if n ≤ u.rx.length then .ok (u.rx.take n, ⟨u.rx.drop n, u.tx⟩)
  else .error .NoResponse

/-- TMC2209 driver over UART (`driver.rs`: `struct Tmc2209<U>`). -/
structure Tmc2209 where
  uart : Uart
  slave_addr : Nat
  reader : ResponseReader
deriving DecidableEq, Repr

namespace Tmc2209

/-- Helper to read a complete response (`Tmc2209::read_response`): reset the
reader, read exactly 8 bytes, feed them, and map a missing outcome to
`NoResponse`, propagating a decode error unchanged. -/
def read_response (d : Tmc2209) : Except Error (ReadResponse × Tmc2209) :=
  let reader := d.reader.reset
  match d.uart.read_exact 8 with
  | .error e => .error e
  | .ok (buf, u2) =>
    match reader.feed buf with
    | (_, _, none) => .error .NoResponse
    | (_, _, some (.error e)) => .error e
    | (reader2, _, some (.ok response)) => .ok (response, ⟨u2, d.slave_addr, reader2⟩)

/-- Read a register, blocking variant (`Tmc2209::read_register::<R>`).  The
type parameter `R` appears here as its address code `reg_addr`
(`R::ADDRESS as u8`), and the returned `u32` payload stands for
`R::from(response.data())`.  The transaction: send the request, discard the
4-byte self-echo, decode the reply, then fail with `AddressMismatch` when
the reply's register address differs from the requested one. -/
def read_register (d : Tmc2209) (reg_addr : Nat) : Except Error (Nat × Tmc2209) :=
  let request := ReadRequest.new d.slave_addr reg_addr
  let u1 := (d.uart.write_all request.bytes).flush
  match u1.read_exact 4 with
  | .error e => .error e
  | .ok (_echo, u2) =>
    match read_response ⟨u2, d.slave_addr, d.reader⟩ with
    | .error e => .error e
    | .ok (response, d2) =>
      if response.reg_addr ≠ reg_addr then
        .error (.AddressMismatch reg_addr response.reg_addr)
      else
        .ok (response.data, d2)

/-- Read a register by raw address, blocking variant (`Tmc2209::read_raw`):
same transaction as `read_register`, but the decoded payload is returned
directly — the source performs no register-address comparison here. -/
def read_raw (d : Tmc2209) (reg_addr : Nat) : Except Error (Nat × Tmc2209) :=
  let request := ReadRequest.from_raw_addr d.slave_addr reg_addr
  let u1 := (d.uart.write_all request.bytes).flush
  match u1.read_exact 4 with
  | .error e => .error e
  | .ok (_echo, u2) =>
    match read_response ⟨u2, d.slave_addr, d.reader⟩ with
    | .error e => .error e
    | .ok (response, d2) => .ok (response.data, d2)

end Tmc2209

/-- Sample well-formed read response frame whose register address byte is 1,
used to exercise the driver's address comparison at a concrete input. -/
def mismatchFrame : List Nat :=
  [5, 255, 1, 0, 0, 0, 0] ++ [crc.compute [5, 255, 1, 0, 0, 0, 0]]

/-- Characterization of `ReadResponse::from_bytes`: which error each input
maps to, and what every successfully decoded value satisfies.  The three
checks of `validate` short-circuit in the order sync, master address, CRC. -/
lemma from_bytes_spec (bytes : List Nat) :
    (ReadResponse.from_bytes bytes = .error .InvalidSync ↔ bytes.getD 0 0 ≠ SYNC) ∧
    (ReadResponse.from_bytes bytes = .error .InvalidMasterAddress ↔
      bytes.getD 0 0 = SYNC ∧ bytes.getD 1 0 ≠ MASTER_ADDR) ∧
    (ReadResponse.from_bytes bytes = .error .CrcMismatch ↔
      bytes.getD 0 0 = SYNC ∧ bytes.getD 1 0 = MASTER_ADDR ∧ crc.verify bytes = false) ∧
    (∀ r, ReadResponse.from_bytes bytes = .ok r →
      r.bytes = bytes ∧ bytes.getD 0 0 = SYNC ∧ bytes.getD 1 0 = MASTER_ADDR ∧
      crc.verify bytes = true) := by
  by_cases h1 : bytes.getD 0 0 = SYNC
  · by_cases h2 : bytes.getD 1 0 = MASTER_ADDR
    · by_cases h3 : crc.verify bytes = true
      · simp_all [ReadResponse.from_bytes, ReadResponse.validate]
      · simp_all [ReadResponse.from_bytes, ReadResponse.validate]
    · simp_all [ReadResponse.from_bytes, ReadResponse.validate]
  · simp_all [ReadResponse.from_bytes, ReadResponse.validate]

/-- C3 (counterexample): the claim says `is_readable` and `is_writable` are
never both true for a known address, but the read-write register `GCONF`
(address `0x00`, documented "RW" in the source) is both. -/
theorem address_gconf_readable_and_writable :
    Address.is_readable .Gconf = true ∧ Address.is_writable .Gconf = true := by
  decide

/-- C3 (amended): the readable and writable subsets of the known register
address set are NOT disjoint — exactly the five read-write registers
(`GCONF`, `GSTAT`, `FACTORY_CONF`, `CHOPCONF`, `PWMCONF`) are both readable
and writable — and an address byte outside the known set is representable:
`Address::from_u8` returns `None` for it rather than failing hard. -/
theorem address_partition_amended :
    (∀ a : Address, (a.is_readable = true ∧ a.is_writable = true) ↔
      (a = .Gconf ∨ a = .Gstat ∨ a = .FactoryConf ∨ a = .Chopconf ∨ a = .Pwmconf)) ∧
    (∀ v < 256, Address.from_u8 v = none ↔ v ∉ knownAddressCodes) := by
  refine ⟨by decide, by decide⟩

/-- C3 (witness): instantiation of `address_partition_amended` at the unknown
address byte `0x08`. -/
theorem address_partition_amended_witness :
    Address.from_u8 8 = none ↔ 8 ∉ knownAddressCodes :=
  address_partition_amended.2 8 (by decide)

/-- C4: encoding a write request and reading it back through the accessors is
a round trip for every slave address in `[0,3]`, register address in
`[0,0x7F]` and 32-bit datum, and byte 2 of every encoded write request has
the write-flag bit `0x80` set regardless of the caller-supplied register
byte. -/
theorem write_request_roundtrip :
    (∀ s r d, s ≤ 3 → r ≤ 0x7F → d < 4294967296 →
      (WriteRequest.from_raw s r d).slave_addr = s ∧
      (WriteRequest.from_raw s r d).reg_addr = r ∧
      (WriteRequest.from_raw s r d).data = d) ∧
    (∀ s r d, r < 256 →
      (WriteRequest.from_raw s r d).bytes.getD 2 0 &&& WRITE_BIT = WRITE_BIT) := by
  have hmask : ∀ r ≤ 127, ((r &&& 127) ||| 128) &&& 127 = r := by decide
  have hflag : ∀ r < 256, ((r &&& 127) ||| 128) &&& 128 = 128 := by decide
  constructor
  · intro s r d hs hr hd
    refine ⟨?_, ?_, ?_⟩
    · simp [WriteRequest.from_raw, WriteRequest.slave_addr, u32_to_be_bytes]
    · simpa [WriteRequest.from_raw, WriteRequest.reg_addr, u32_to_be_bytes,
        ADDRESS_MASK, WRITE_BIT] using hmask r hr
    · simp only [WriteRequest.from_raw, WriteRequest.data, u32_to_be_bytes,
        u32_from_be_bytes, List.cons_append, List.nil_append, List.getD_cons_succ,
        List.getD_cons_zero]
      omega
  · intro s r d hr
    simpa [WriteRequest.from_raw, u32_to_be_bytes, ADDRESS_MASK, WRITE_BIT]
      using hflag r hr

/-- C4 (witness): instantiation of `write_request_roundtrip` at slave 1,
register `0x10`, datum `0xDEADBEEF`. -/
theorem write_request_roundtrip_witness :
    (WriteRequest.from_raw 1 0x10 0xDEADBEEF).slave_addr = 1 ∧
    (WriteRequest.from_raw 1 0x10 0xDEADBEEF).reg_addr = 0x10 ∧
    (WriteRequest.from_raw 1 0x10 0xDEADBEEF).data = 0xDEADBEEF :=
  write_request_roundtrip.1 1 0x10 0xDEADBEEF (by decide) (by decide) (by decide)

/-- C5: the fixed-size decode validates the sync byte first, then the master
address sentinel, then the checksum, short-circuiting on the first failure
with `InvalidSync`, `InvalidMasterAddress` and `CrcMismatch` respectively;
every successfully constructed `ReadResponse` carries exactly the input
bytes and satisfies all three checks, so no partially-valid value exists. -/
theorem decode_validation_order (bytes : List Nat) :
    (ReadResponse.from_bytes bytes = .error .InvalidSync ↔ bytes.getD 0 0 ≠ SYNC) ∧
    (ReadResponse.from_bytes bytes = .error .InvalidMasterAddress ↔
      bytes.getD 0 0 = SYNC ∧ bytes.getD 1 0 ≠ MASTER_ADDR) ∧
    (ReadResponse.from_bytes bytes = .error .CrcMismatch ↔
      bytes.getD 0 0 = SYNC ∧ bytes.getD 1 0 = MASTER_ADDR ∧ crc.verify bytes = false) ∧
    (∀ r, ReadResponse.from_bytes bytes = .ok r →
      r.bytes = bytes ∧ bytes.getD 0 0 = SYNC ∧ bytes.getD 1 0 = MASTER_ADDR ∧
      crc.verify bytes = true) :=
  from_bytes_spec bytes

/-- C5 (witness): instantiation of `decode_validation_order` at a concrete
well-formed frame, extracting the only-constructible-via-validation part. -/
theorem decode_validation_order_witness :
    (⟨sampleFrame⟩ : ReadResponse).bytes = sampleFrame ∧ sampleFrame.getD 0 0 = SYNC ∧
    sampleFrame.getD 1 0 = MASTER_ADDR ∧ crc.verify sampleFrame = true :=
  (decode_validation_order sampleFrame).2.2.2 ⟨sampleFrame⟩ (by decide)

/-- C6: decoding from a slice of fewer than 8 bytes always fails with the
`BufferTooSmall` error (the embedding is total, so no panic or out-of-bounds
access is possible), and a slice of at least 8 bytes is decoded by passing
exactly its first 8 bytes to the fixed-size decoder. -/
theorem from_slice_short_buffer (slice : List Nat) :
    (slice.length < 8 → ReadResponse.from_slice slice = .error .BufferTooSmall) ∧
    (8 ≤ slice.length → ReadResponse.from_slice slice = ReadResponse.from_bytes (slice.take 8)) := by
  constructor <;> intro h
  · simp [ReadResponse.from_slice, ReadResponse.LEN, h]
  · simp [ReadResponse.from_slice, ReadResponse.LEN, Nat.not_lt.mpr h]

/-- C6 (witness): instantiation of `from_slice_short_buffer` at the 3-byte
slice `[5, 255, 0]`. -/
theorem from_slice_short_buffer_witness :
    ReadResponse.from_slice [5, 255, 0] = .error .BufferTooSmall :=
  (from_slice_short_buffer [5, 255, 0]).1 (by decide)

/-- Xor distributes through right shifts on `Nat`. -/
lemma xor_shiftRight_distrib (a b n : Nat) : (a ^^^ b) >>> n = a >>> n ^^^ b >>> n := by
  apply Nat.eq_of_testBit_eq
  intro i
  simp [Nat.testBit_shiftRight, Nat.testBit_xor]

/-- Xor distributes through left shifts on `Nat`. -/
lemma xor_shiftLeft_distrib (a b n : Nat) : (a ^^^ b) <<< n = a <<< n ^^^ b <<< n := by
  apply Nat.eq_of_testBit_eq
  intro i
  simp [Nat.testBit_shiftLeft, Nat.testBit_xor, Bool.and_xor_distrib_left]

/-- Regrouping of a fourfold xor on `Nat`. -/
lemma xor_rearrange (a b c d : Nat) : (a ^^^ b) ^^^ (c ^^^ d) = (a ^^^ c) ^^^ (b ^^^ d) := by
  apply Nat.eq_of_testBit_eq
  intro i
  simp only [Nat.testBit_xor]
  cases a.testBit i <;> cases b.testBit i <;> cases c.testBit i <;> cases d.testBit i <;> rfl

/-- Left-commuted xor on `Nat`. -/
lemma xor_left_comm_nat (a b c : Nat) : a ^^^ (b ^^^ c) = b ^^^ (a ^^^ c) := by
  rw [← Nat.xor_assoc, Nat.xor_comm a b, Nat.xor_assoc]

/-- Xor by a nonzero value changes a natural number. -/
lemma xor_ne_self {a s : Nat} (hs : s ≠ 0) : a ^^^ s ≠ a := by
  intro h
  apply hs
  have h2 : a ^^^ (a ^^^ s) = a ^^^ a := by rw [h]
  simpa [← Nat.xor_assoc] using h2

/-- One CRC bit step keeps the state below 256. -/
lemma crcBitStep_lt (c b : Nat) : crc.crcBitStep c b < 256 := by
  have hp : (2 : Nat) ^ 8 = 256 := by norm_num
  have h1 : (c <<< 1) &&& 255 < 256 := hp ▸ Nat.and_lt_two_pow _ (by norm_num)
  have h2 : ((c <<< 1) &&& 255) ^^^ 7 < 256 :=
    hp ▸ Nat.xor_lt_two_pow (hp ▸ h1) (by norm_num)
  unfold crc.crcBitStep
  split
  · exact h2
  · exact h1

/-- Branch combination underlying the GF(2)-linearity of one CRC bit step:
when the four condition summands are bits, the conditional xor-with-7
distributes over the xor of the two states. -/
lemma ite_xor_lin (s1 s2 u1 u2 t1 t2 : Nat) (hu1 : u1 ≤ 1) (hu2 : u2 ≤ 1)
    (ht1 : t1 ≤ 1) (ht2 : t2 ≤ 1) :
    (if ((u1 ^^^ t1) ^^^ (u2 ^^^ t2)) ≠ 0 then (s1 ^^^ s2) ^^^ 7 else s1 ^^^ s2) =
    ((if (u1 ^^^ t1) ≠ 0 then s1 ^^^ 7 else s1) ^^^
      (if (u2 ^^^ t2) ≠ 0 then s2 ^^^ 7 else s2)) := by
  interval_cases u1 <;> interval_cases u2 <;> interval_cases t1 <;> interval_cases t2 <;>
    simp [Nat.xor_assoc, Nat.xor_comm, xor_left_comm_nat]

/-- One CRC bit step is GF(2)-linear in the state and the input bit. -/
lemma crcBitStep_lin (c1 c2 b1 b2 : Nat) (h1 : c1 < 256) (h2 : c2 < 256) :
    crc.crcBitStep (c1 ^^^ c2) (b1 ^^^ b2) = crc.crcBitStep c1 b1 ^^^ crc.crcBitStep c2 b2 := by
  have hu1 : c1 >>> 7 ≤ 1 := by
    rw [Nat.shiftRight_eq_div_pow]
    have hp : (2 : Nat) ^ 7 = 128 := by norm_num
    rw [hp]
    omega
  have hu2 : c2 >>> 7 ≤ 1 := by
    rw [Nat.shiftRight_eq_div_pow]
    have hp : (2 : Nat) ^ 7 = 128 := by norm_num
    rw [hp]
    omega
  have ht1 : b1 &&& 1 ≤ 1 := Nat.and_le_right
  have ht2 : b2 &&& 1 ≤ 1 := Nat.and_le_right
  unfold crc.crcBitStep
  simp only [xor_shiftRight_distrib, xor_shiftLeft_distrib, Nat.and_xor_distrib_right]
  rw [xor_rearrange]
  exact ite_xor_lin _ _ _ _ _ _ hu1 hu2 ht1 ht2

/-- The CRC bit loop keeps the state below 256. -/
lemma crcBits_lt (n : Nat) : ∀ c b, c < 256 → crc.crcBits n c b < 256 := by
  induction n with
  | zero => intro c b h; simpa [crc.crcBits] using h
  | succ n ih =>
    intro c b h
    rw [crc.crcBits]
    exact ih _ _ (crcBitStep_lt c b)

/-- The CRC bit loop is GF(2)-linear in the state and the input byte. -/
lemma crcBits_lin (n : Nat) : ∀ c1 c2 b1 b2, c1 < 256 → c2 < 256 →
    crc.crcBits n (c1 ^^^ c2) (b1 ^^^ b2) = crc.crcBits n c1 b1 ^^^ crc.crcBits n c2 b2 := by
  induction n with
  | zero => intros; simp [crc.crcBits]
  | succ n ih =>
    intro c1 c2 b1 b2 h1 h2
    simp only [crc.crcBits]
    rw [crcBitStep_lin c1 c2 b1 b2 h1 h2, xor_shiftRight_distrib]
    exact ih _ _ _ _ (crcBitStep_lt c1 b1) (crcBitStep_lt c2 b2)

/-- The CRC byte step keeps the state below 256. -/
lemma crcByteStep_lt (c b : Nat) (h : c < 256) : crc.crcByteStep c b < 256 :=
  crcBits_lt 8 c b h

/-- The CRC byte step is GF(2)-linear in the state and the input byte. -/
lemma crcByteStep_lin (c1 c2 b1 b2 : Nat) (h1 : c1 < 256) (h2 : c2 < 256) :
    crc.crcByteStep (c1 ^^^ c2) (b1 ^^^ b2) =
      crc.crcByteStep c1 b1 ^^^ crc.crcByteStep c2 b2 :=
  crcBits_lin 8 c1 c2 b1 b2 h1 h2

/-- Folding the CRC byte step over the pointwise xor of two equal-length
messages from the xor of two 8-bit states computes the xor of the two
folds. -/
lemma foldl_crc_lin : ∀ (l1 l2 : List Nat) (c1 c2 : Nat), c1 < 256 → c2 < 256 →
    l1.length = l2.length →
    List.foldl crc.crcByteStep (c1 ^^^ c2) (List.zipWith (fun a b => a ^^^ b) l1 l2) =
      (List.foldl crc.crcByteStep c1 l1) ^^^ (List.foldl crc.crcByteStep c2 l2) := by
  intro l1
  induction l1 with
  | nil =>
    intro l2 c1 c2 h1 h2 hlen
    have : l2 = [] := List.eq_nil_of_length_eq_zero hlen.symm
    subst this
    simp
  | cons a t ih =>
    intro l2 c1 c2 h1 h2 hlen
    cases l2 with
    | nil => simp at hlen
    | cons b t2 =>
      simp only [List.zipWith_cons_cons, List.foldl_cons]
      rw [crcByteStep_lin c1 c2 a b h1 h2]
      exact ih t2 _ _ (crcByteStep_lt _ _ h1) (crcByteStep_lt _ _ h2) (by simpa using hlen)

/-- GF(2)-linearity of the CRC over pointwise xor of equal-length messages. -/
lemma compute_zip (l1 l2 : List Nat) (h : l1.length = l2.length) :
    crc.compute (List.zipWith (fun a b => a ^^^ b) l1 l2) =
      crc.compute l1 ^^^ crc.compute l2 := by
  simpa [crc.compute] using foldl_crc_lin l1 l2 0 0 (by omega) (by omega) h

/-- Pointwise xor with an all-zero message is the identity. -/
lemma zipWith_xor_replicate_zero :
    ∀ (l : List Nat), List.zipWith (fun a b => a ^^^ b) l (List.replicate l.length 0) = l := by
  intro l
  induction l with
  | nil => rfl
  | cons a t ih => simp [List.replicate_succ, ih]

/-- Pointwise xor with a one-hot message is a single-position update. -/
lemma zipWith_xor_set : ∀ (l : List Nat) (i v : Nat), i < l.length →
    List.zipWith (fun a b => a ^^^ b) l ((List.replicate l.length 0).set i v) =
      l.set i (l.getD i 0 ^^^ v) := by
  intro l
  induction l with
  | nil => intro i v h; simp at h
  | cons a t ih =>
    intro i v h
    cases i with
    | zero => simp [List.replicate_succ, zipWith_xor_replicate_zero t]
    | succ i =>
      simp only [List.length_cons, List.replicate_succ, List.set_cons_succ,
        List.zipWith_cons_cons, List.getD_cons_succ, Nat.xor_zero]
      exact congrArg (a :: ·) (ih i v (by simpa using h))

/-- Effect of xoring one message byte on the CRC: the checksum picks up the
CRC of the corresponding one-hot message. -/
lemma compute_flip (l : List Nat) (i v : Nat) (h : i < l.length) :
    crc.compute (l.set i (l.getD i 0 ^^^ v)) =
      crc.compute l ^^^ crc.compute ((List.replicate l.length 0).set i v) := by
  rw [← zipWith_xor_set l i v h, compute_zip]
  simp

/-- No single-bit error in a 7-byte message has a zero CRC syndrome. -/
lemma syndrome_ne_zero : ∀ i < 7, ∀ j < 8,
    crc.compute ((List.replicate 7 0).set i (1 <<< j)) ≠ 0 := by decide

/-- C1 (counterexample): flipping bit 0 of byte 0 (the sync byte) of a
well-formed response frame makes `ReadResponse::from_bytes` fail with
`InvalidSync`, not with the checksum-mismatch error, because the sync byte
is validated before the checksum. -/
theorem checksum_flip_counterexample :
    ReadResponse.from_bytes (flipBit sampleFrame 0 0) = .error .InvalidSync ∧
    ReadResponse.from_bytes (flipBit sampleFrame 0 0) ≠ .error .CrcMismatch := by
  decide

/-- C1 (amended): for every well-formed 8-byte response frame, flipping any
single bit of byte 0 makes the fixed-size decode fail with `InvalidSync`,
flipping any single bit of byte 1 fails with `InvalidMasterAddress`, and
flipping any single bit of bytes 2..6 (all 40 such bit positions) fails with
the checksum-mismatch error `CrcMismatch` and no other variant, since the
unmodified trailing checksum no longer matches. -/
theorem checksum_sensitivity_amended (frame : List Nat) (r : ReadResponse) (j : Nat)
    (hok : ReadResponse.from_bytes frame = .ok r) (hlen : frame.length = 8)
    (hj : j < 8) :
    ReadResponse.from_bytes (flipBit frame 0 j) = .error .InvalidSync ∧
    ReadResponse.from_bytes (flipBit frame 1 j) = .error .InvalidMasterAddress ∧
    (∀ i, 2 ≤ i → i ≤ 6 →
      ReadResponse.from_bytes (flipBit frame i j) = .error .CrcMismatch) := by
  obtain ⟨-, h0, h1, hv⟩ := (from_bytes_spec frame).2.2.2 r hok
  have hset_self : ∀ (l : List Nat) i v, i < l.length → (l.set i v).getD i 0 = v := by
    intro l i v h
    simp [List.getD_eq_getElem?_getD, List.getElem?_set_self h]
  have hset_ne : ∀ (l : List Nat) i k v, i ≠ k → (l.set i v).getD k 0 = l.getD k 0 := by
    intro l i k v h
    simp [List.getD_eq_getElem?_getD, List.getElem?_set_ne h]
  refine ⟨?_, ?_, ?_⟩
  · apply (from_bytes_spec _).1.mpr
    have e : (flipBit frame 0 j).getD 0 0 = SYNC ^^^ (1 <<< j) := by
      unfold flipBit
      rw [hset_self _ _ _ (by omega), h0]
    rw [e]
    have hne : ∀ j < 8, SYNC ^^^ (1 <<< j) ≠ SYNC := by decide
    exact hne j hj
  · apply (from_bytes_spec _).2.1.mpr
    constructor
    · show (flipBit frame 1 j).getD 0 0 = SYNC
      unfold flipBit
      rw [hset_ne frame 1 0 _ (by omega)]
      exact h0
    · have e : (flipBit frame 1 j).getD 1 0 = MASTER_ADDR ^^^ (1 <<< j) := by
        unfold flipBit
        rw [hset_self _ _ _ (by omega), h1]
      rw [e]
      have hne : ∀ j < 8, MASTER_ADDR ^^^ (1 <<< j) ≠ MASTER_ADDR := by decide
      exact hne j hj
  · intro i hi2 hi6
    apply (from_bytes_spec _).2.2.1.mpr
    have hLlen : (flipBit frame i j).length = 8 := by simp [flipBit, hlen]
    refine ⟨?_, ?_, ?_⟩
    · show (flipBit frame i j).getD 0 0 = SYNC
      unfold flipBit
      rw [hset_ne frame i 0 _ (by omega)]
      exact h0
    · show (flipBit frame i j).getD 1 0 = MASTER_ADDR
      unfold flipBit
      rw [hset_ne frame i 1 _ (by omega)]
      exact h1
    · -- the stored checksum byte is unchanged, the message CRC is not
      have hlen7 : (frame.take 7).length = 7 := by simp [hlen]
      have hgd : (frame.take 7).getD i 0 = frame.getD i 0 := by
        simp [List.getD_eq_getElem?_getD, List.getElem?_take_of_lt (show i < 7 by omega)]
      have htake : (flipBit frame i j).take 7 =
          (frame.take 7).set i ((frame.take 7).getD i 0 ^^^ (1 <<< j)) := by
        unfold flipBit
        rw [List.set_take, hgd]
      have h7 : (flipBit frame i j).getD 7 0 = frame.getD 7 0 :=
        hset_ne frame i 7 _ (by omega)
      have hcomp : crc.compute ((flipBit frame i j).take 7) =
          crc.compute (frame.take 7) ^^^
            crc.compute ((List.replicate 7 0).set i (1 <<< j)) := by
        rw [htake]
        have := compute_flip (frame.take 7) i (1 <<< j) (by omega)
        rwa [hlen7] at this
      have hv2 : crc.compute (frame.take 7) = frame.getD 7 0 := by
        simp only [crc.verify, hlen, show (8 : Nat) - 1 = 7 from rfl, beq_iff_eq] at hv
        exact hv
      simp only [crc.verify, hLlen]
      rw [show (8 : Nat) - 1 = 7 from rfl, hcomp, h7, hv2]
      rw [beq_eq_false_iff_ne]
      rw [← hv2]
      exact xor_ne_self (syndrome_ne_zero i (by omega) j hj)

/-- C1 (witness): instantiation of `checksum_sensitivity_amended` at the
sample frame, bit 0 of the register-address byte (byte 2). -/
theorem checksum_sensitivity_amended_witness :
    ReadResponse.from_bytes (flipBit sampleFrame 2 0) = .error .CrcMismatch :=
  (checksum_sensitivity_amended sampleFrame ⟨sampleFrame⟩ 0 (by decide) (by decide)
    (by decide)).2.2 2 (by decide) (by decide)

/-- Destructuring of a list of known successor length. -/
lemma exists_cons_of_length {α : Type} {l : List α} {n : Nat} (h : l.length = n + 1) :
    ∃ a t, l = a :: t ∧ t.length = n := by
  cases l with
  | nil => simp at h
  | cons a t => exact ⟨a, t, rfl, by simpa using h⟩

/-- Inputs passing all three validation checks decode successfully. -/
lemma from_bytes_ok {bytes : List Nat} (h0 : bytes.getD 0 0 = SYNC)
    (h1 : bytes.getD 1 0 = MASTER_ADDR) (hv : crc.verify bytes = true) :
    ReadResponse.from_bytes bytes = .ok ⟨bytes⟩ := by
  have h0q := h0
  have h1q := h1
  simp only [List.getD_eq_getElem?_getD] at h0q h1q
  simp [ReadResponse.from_bytes, ReadResponse.validate, h0q, h1q, hv]

/-- Parser run from cursor 1 (sync already matched, stored in byte 0 of the
buffer): fed the 7 remaining bytes of a valid frame, it consumes all 7 and
emits the decoded frame, with the cursor back at 0. -/
lemma feedAux_one_valid (B t : List Nat) (hB : B.length = 8) (hB0 : B.getD 0 0 = SYNC)
    (ht : t.length = 7) (h1 : t.getD 0 0 = MASTER_ADDR)
    (hv : crc.verify (SYNC :: t) = true) :
    feedAux 1 B t = (⟨0, SYNC :: t⟩, 7, some (.ok ⟨SYNC :: t⟩)) := by
  obtain ⟨t0, l1, rfl, hl1⟩ := exists_cons_of_length ht
  obtain ⟨u1, l2, rfl, hl2⟩ := exists_cons_of_length hl1
  obtain ⟨u2, l3, rfl, hl3⟩ := exists_cons_of_length hl2
  obtain ⟨u3, l4, rfl, hl4⟩ := exists_cons_of_length hl3
  obtain ⟨u4, l5, rfl, hl5⟩ := exists_cons_of_length hl4
  obtain ⟨u5, l6, rfl, hl6⟩ := exists_cons_of_length hl5
  obtain ⟨u6, l7, rfl, hl7⟩ := exists_cons_of_length hl6
  obtain rfl := List.eq_nil_of_length_eq_zero hl7
  obtain ⟨b0, m1, rfl, hm1⟩ := exists_cons_of_length hB
  obtain ⟨c1, m2, rfl, hm2⟩ := exists_cons_of_length hm1
  obtain ⟨c2, m3, rfl, hm3⟩ := exists_cons_of_length hm2
  obtain ⟨c3, m4, rfl, hm4⟩ := exists_cons_of_length hm3
  obtain ⟨c4, m5, rfl, hm5⟩ := exists_cons_of_length hm4
  obtain ⟨c5, m6, rfl, hm6⟩ := exists_cons_of_length hm5
  obtain ⟨c6, m7, rfl, hm7⟩ := exists_cons_of_length hm6
  obtain ⟨c7, m8, rfl, hm8⟩ := exists_cons_of_length hm7
  obtain rfl := List.eq_nil_of_length_eq_zero hm8
  simp only [List.getD_cons_zero] at hB0 h1
  subst hB0 h1
  simp [feedAux, from_bytes_ok (by simp) (by simp) hv]

/-- Parser run from cursor 0 on exactly one valid 8-byte frame: it consumes
all 8 bytes and emits the decoded frame, with the cursor back at 0 and the
frame in the buffer. -/
lemma feed_valid_resp (buf resp : List Nat) (hbuf : buf.length = 8)
    (hlen : resp.length = 8) (h0 : resp.getD 0 0 = SYNC)
    (h1 : resp.getD 1 0 = MASTER_ADDR) (hv : crc.verify resp = true) :
    feedAux 0 buf resp = (⟨0, resp⟩, 8, some (.ok ⟨resp⟩)) := by
  obtain ⟨r0, t, rfl, ht⟩ := exists_cons_of_length hlen
  simp only [List.getD_cons_zero] at h0
  subst h0
  have hone := feedAux_one_valid (buf.set 0 SYNC) t (by simpa using hbuf)
    (by simp [List.getD_eq_getElem?_getD, List.getElem?_set_self (by omega : 0 < buf.length)])
    ht (by simpa using h1) hv
  rw [feedAux]
  simp [hone]

/-- C7: after a false sync (a sync byte whose follower is not the source
sentinel), the follower byte is NOT dropped: for a stream made of one sync
byte directly followed by a genuine valid response (whose own first byte is
the sync value and is therefore the non-sentinel follower), `feed` still
yields the decoded genuine response, consuming 1 + 8 bytes. -/
theorem parser_false_sync_recovery (buf resp : List Nat) (hbuf : buf.length = 8)
    (hlen : resp.length = 8) (h0 : resp.getD 0 0 = SYNC)
    (h1 : resp.getD 1 0 = MASTER_ADDR) (hv : crc.verify resp = true) :
    ResponseReader.feed ⟨0, buf⟩ (SYNC :: resp) = (⟨0, resp⟩, 9, some (.ok ⟨resp⟩)) := by
  obtain ⟨r0, t, rfl, ht⟩ := exists_cons_of_length hlen
  simp only [List.getD_cons_zero] at h0
  subst h0
  have hone := feedAux_one_valid (buf.set 0 SYNC) t (by simp [hbuf])
    (by simp [List.getD_eq_getElem?_getD,
      List.getElem?_set_self (show 0 < buf.length by omega)])
    ht (by simpa using h1) hv
  show feedAux 0 buf (SYNC :: SYNC :: t) = _
  rw [feedAux]
  simp only [if_pos rfl]
  rw [feedAux]
  norm_num [show SYNC ≠ MASTER_ADDR from by decide, hone]

/-- C8: resynchronization — for any prefix of non-sync garbage bytes followed
by one complete valid 8-byte response, `feed` from cursor 0 consumes exactly
`garbage.length + 8` bytes and returns the successfully decoded response. -/
theorem parser_resynchronization (garbage buf resp : List Nat)
    (hg : ∀ b ∈ garbage, b ≠ SYNC) (hbuf : buf.length = 8)
    (hlen : resp.length = 8) (h0 : resp.getD 0 0 = SYNC)
    (h1 : resp.getD 1 0 = MASTER_ADDR) (hv : crc.verify resp = true) :
    ResponseReader.feed ⟨0, buf⟩ (garbage ++ resp) =
      (⟨0, resp⟩, garbage.length + 8, some (.ok ⟨resp⟩)) := by
  show feedAux 0 buf (garbage ++ resp) = _
  induction garbage with
  | nil => simpa using feed_valid_resp buf resp hbuf hlen h0 h1 hv
  | cons g gs ih =>
    have hgne : g ≠ SYNC := hg g (List.mem_cons_self g gs)
    have ihh := ih fun b hb => hg b (List.mem_cons_of_mem g hb)
    rw [List.cons_append, feedAux]
    simp only [if_pos rfl, hgne, if_false, ihh]
    norm_num

/-- C8 (witness): instantiation of `parser_resynchronization` with three
garbage bytes before the sample frame. -/
theorem parser_resynchronization_witness :
    ResponseReader.feed ⟨0, List.replicate 8 0⟩ ([1, 2, 3] ++ sampleFrame) =
      (⟨0, sampleFrame⟩, [1, 2, 3].length + 8, some (.ok ⟨sampleFrame⟩)) :=
  parser_resynchronization [1, 2, 3] (List.replicate 8 0) sampleFrame
    (by decide) (by decide) (by decide) (by decide) (by decide) (by decide)

/-- C7 (witness): instantiation of `parser_false_sync_recovery` at the sample
frame preceded by a lone sync byte. -/
theorem parser_false_sync_recovery_witness :
    ResponseReader.feed ⟨0, List.replicate 8 0⟩ (SYNC :: sampleFrame) =
      (⟨0, sampleFrame⟩, 9, some (.ok ⟨sampleFrame⟩)) :=
  parser_false_sync_recovery (List.replicate 8 0) sampleFrame
    (by decide) (by decide) (by decide) (by decide) (by decide)

/-- The parser state invariant is preserved by `feed`: starting below cursor
8 with an 8-byte buffer, it ends below cursor 8 with an 8-byte buffer. -/
lemma feedAux_preserves (i : Nat) (buf bs : List Nat) :
    i ≤ 7 → buf.length = 8 →
    (feedAux i buf bs).1.index ≤ 7 ∧ (feedAux i buf bs).1.buffer.length = 8 := by
  induction i, buf, bs using feedAux.induct <;> intro hi hb <;> rw [feedAux.eq_def] <;>
    simp_all <;> (try split <;> simp_all) <;> omega

/-- Whenever `feed` reports an outcome, it has reset the cursor to 0. -/
lemma feedAux_some_index_zero (i : Nat) (buf bs : List Nat) (o : Except Error ReadResponse) :
    (feedAux i buf bs).2.2 = some o → (feedAux i buf bs).1.index = 0 := by
  induction i, buf, bs using feedAux.induct <;> intro ho <;> rw [feedAux.eq_def] at ho ⊢ <;>
    simp_all <;> (try split at ho <;> split <;> simp_all)

/-- Feeding no bytes from any in-range cursor consumes nothing and changes
nothing. -/
lemma feedAux_nil (i : Nat) (buf : List Nat) (hi : i ≤ 7) :
    feedAux i buf [] = (⟨i, buf⟩, 0, none) := by
  by_cases h0 : i = 0
  · subst h0; rfl
  · by_cases h1 : i = 1
    · subst h1; rfl
    · rw [feedAux.eq_def]
      simp [h0, h1, show i ≠ 8 by omega, List.take_append_drop]

/-- C10: parser state invariants — from any reachable state (cursor at most
7, 8-byte buffer), after `feed` the cursor is again at most 7 (never left at
8) and the buffer still has 8 bytes; whenever `feed` returns an outcome the
cursor is exactly 0, so the parser is ready for the next datagram without an
explicit reset; `reset` puts the cursor at 0; and `feed` of an empty input
consumes 0 bytes and leaves the state unchanged. -/
theorem parser_cursor_invariants (r : ResponseReader) (bs : List Nat)
    (hi : r.index ≤ 7) (hb : r.buffer.length = 8) :
    ((r.feed bs).1.index ≤ 7 ∧ (r.feed bs).1.buffer.length = 8) ∧
    (∀ o, (r.feed bs).2.2 = some o → (r.feed bs).1.index = 0) ∧
    r.reset.index = 0 ∧
    r.feed [] = (r, 0, none) := by
  refine ⟨feedAux_preserves r.index r.buffer bs hi hb,
    fun o => feedAux_some_index_zero r.index r.buffer bs o, rfl, ?_⟩
  show feedAux r.index r.buffer [] = (r, 0, none)
  rw [feedAux_nil r.index r.buffer hi]

/-- C10 (witness): instantiation of `parser_cursor_invariants` at a fresh
reader and an empty input. -/
theorem parser_cursor_invariants_witness :
    ResponseReader.feed ⟨0, List.replicate 8 0⟩ [] = (⟨0, List.replicate 8 0⟩, 0, none) :=
  (parser_cursor_invariants ⟨0, List.replicate 8 0⟩ [] (by decide) (by decide)).2.2.2

/-- Evaluation of the sync-matching step of the parser. -/
lemma feedAux_zero_sync (buf bs : List Nat) :
    feedAux 0 buf (SYNC :: bs) =
      ((feedAux 1 (buf.set 0 SYNC) bs).1, (feedAux 1 (buf.set 0 SYNC) bs).2.1 + 1,
        (feedAux 1 (buf.set 0 SYNC) bs).2.2) := rfl

/-- Evaluation of the garbage-skipping step of the parser. -/
lemma feedAux_zero_skip (buf bs : List Nat) (b : Nat) (hb : b ≠ SYNC) :
    feedAux 0 buf (b :: bs) =
      ((feedAux 0 buf bs).1, (feedAux 0 buf bs).2.1 + 1, (feedAux 0 buf bs).2.2) := by
  rw [feedAux.eq_def]
  simp [hb]

/-- Evaluation of the sentinel-matching step of the parser. -/
lemma feedAux_one_master (buf bs : List Nat) :
    feedAux 1 buf (MASTER_ADDR :: bs) =
      ((feedAux 2 (buf.set 1 MASTER_ADDR) bs).1,
        (feedAux 2 (buf.set 1 MASTER_ADDR) bs).2.1 + 1,
        (feedAux 2 (buf.set 1 MASTER_ADDR) bs).2.2) := rfl

/-- Evaluation of the false-sync step: a sync byte where the sentinel was
expected restarts the frame at this byte. -/
lemma feedAux_one_sync (buf bs : List Nat) :
    feedAux 1 buf (SYNC :: bs) =
      ((feedAux 1 (buf.set 0 SYNC) bs).1, (feedAux 1 (buf.set 0 SYNC) bs).2.1 + 1,
        (feedAux 1 (buf.set 0 SYNC) bs).2.2) := rfl

/-- Evaluation of the sentinel-mismatch step on a non-sync byte. -/
lemma feedAux_one_other (buf bs : List Nat) (b : Nat) (hbm : b ≠ MASTER_ADDR)
    (hbs : b ≠ SYNC) :
    feedAux 1 buf (b :: bs) =
      ((feedAux 0 buf bs).1, (feedAux 0 buf bs).2.1 + 1, (feedAux 0 buf bs).2.2) := by
  rw [feedAux.eq_def]
  simp [hbm, hbs]

/-- Evaluation of the accumulation branch of the parser (cursor at least 2). -/
lemma feedAux_copy (i : Nat) (buf bs : List Nat) (h2 : 2 ≤ i) :
    feedAux i buf bs =
      (if i + min bs.length (8 - i) = 8 then
        (⟨0, buf.take i ++ bs.take (min bs.length (8 - i)) ++
            buf.drop (i + min bs.length (8 - i))⟩,
          min bs.length (8 - i),
          some (ReadResponse.from_bytes (buf.take i ++ bs.take (min bs.length (8 - i)) ++
            buf.drop (i + min bs.length (8 - i)))))
      else
        (⟨i + min bs.length (8 - i), buf.take i ++ bs.take (min bs.length (8 - i)) ++
            buf.drop (i + min bs.length (8 - i))⟩,
          min bs.length (8 - i), none)) := by
  rw [feedAux.eq_def]
  simp [show ¬ i = 0 by omega, show ¬ i = 1 by omega]

/-- The accumulation branch composes over appended input when the first run
stops short of a full frame. -/
lemma feedAux_append_copy (i : Nat) (buf bs cs : List Nat) (h2 : 2 ≤ i) (hi : i ≤ 7)
    (hb : buf.length = 8) (hnone : (feedAux i buf bs).2.2 = none) :
    feedAux i buf (bs ++ cs) =
      ((feedAux (feedAux i buf bs).1.index (feedAux i buf bs).1.buffer cs).1,
        (feedAux i buf bs).2.1 +
          (feedAux (feedAux i buf bs).1.index (feedAux i buf bs).1.buffer cs).2.1,
        (feedAux (feedAux i buf bs).1.index (feedAux i buf bs).1.buffer cs).2.2) := by
  have hc : ¬ (i + min bs.length (8 - i) = 8) := by
    intro h
    rw [feedAux_copy i buf bs h2, if_pos h] at hnone
    simp at hnone
  have hbs : bs.length < 8 - i := by omega
  have ha : min bs.length (8 - i) = bs.length := by omega
  rw [feedAux_copy i buf bs h2, if_neg hc]
  simp only [ha, List.take_length]
  set B2 := buf.take i ++ bs ++ buf.drop (i + bs.length) with hB2def
  set a' := min cs.length (8 - (i + bs.length)) with hadef
  have htbl : (buf.take i).length = i := by
    simp [hb]
    omega
  have hB2take : B2.take (i + bs.length) = buf.take i ++ bs := by
    rw [hB2def, List.append_assoc, List.take_append_eq_append_take]
    rw [List.take_of_length_le (by omega : (buf.take i).length ≤ i + bs.length), htbl,
      Nat.add_sub_cancel_left, List.take_append_of_le_length (le_refl bs.length),
      List.take_length]
  have hB2drop : B2.drop (i + bs.length + a') = buf.drop (i + bs.length + a') := by
    rw [hB2def, List.drop_append_eq_append_drop,
      List.drop_eq_nil_of_le (by simp [htbl]; try omega), List.nil_append, List.drop_drop]
    congr 1
    simp only [List.length_append, htbl]
    omega
  have hA : min (bs ++ cs).length (8 - i) = bs.length + a' := by
    simp only [List.length_append]
    omega
  rw [feedAux_copy (i + bs.length) B2 cs (by omega), feedAux_copy i buf (bs ++ cs) h2, hA]
  have htap : (bs ++ cs).take (bs.length + a') = bs ++ cs.take a' := List.take_append a'
  split_ifs with hc1 hc2 hc3 <;> try omega
  all_goals simp only [hB2take, hB2drop, htap]
  all_goals simp [List.append_assoc, Nat.add_assoc]

/-- Adding one consumed byte to a feed result commutes with composition. -/
lemma feedComp_step (p : ResponseReader × Nat × Option (Except Error ReadResponse))
    (cs : List Nat) :
    feedComp (p.1, p.2.1 + 1, p.2.2) cs =
      ((feedComp p cs).1, (feedComp p cs).2.1 + 1, (feedComp p cs).2.2) := by
  rcases p with ⟨r, n, o⟩
  cases o <;> simp [feedComp] <;> omega

/-- Once the accumulation branch reports an outcome, appended input is left
untouched. -/
lemma feedAux_append_copy_some (i : Nat) (buf bs cs : List Nat) (h2 : 2 ≤ i)
    (o : Except Error ReadResponse) (ho : (feedAux i buf bs).2.2 = some o) :
    feedAux i buf (bs ++ cs) = feedAux i buf bs := by
  have hcnd : i + min bs.length (8 - i) = 8 := by
    by_contra h
    rw [feedAux_copy i buf bs h2, if_neg h] at ho
    simp at ho
  have hlen : 8 - i ≤ bs.length := by omega
  have hm : min bs.length (8 - i) = 8 - i := by omega
  have hm2 : min (bs ++ cs).length (8 - i) = 8 - i := by
    simp only [List.length_append]
    omega
  rw [feedAux_copy i buf bs h2, feedAux_copy i buf (bs ++ cs) h2, hm, hm2,
    if_pos (by omega), if_pos (by omega), List.take_append_of_le_length hlen]

/-- Master composition law of the parser: feeding a concatenation equals
feeding the first part and composing per `feedComp`. -/
lemma feedAux_append (bs : List Nat) : ∀ (i : Nat) (buf cs : List Nat),
    i ≤ 7 → buf.length = 8 →
    feedAux i buf (bs ++ cs) = feedComp (feedAux i buf bs) cs := by
  induction bs with
  | nil =>
    intro i buf cs hi hb
    rw [List.nil_append, feedAux_nil i buf hi]
    simp [feedComp]
  | cons b rest ih =>
    intro i buf cs hi hb
    by_cases h0 : i = 0
    · subst h0
      by_cases hs : b = SYNC
      · subst hs
        simp only [List.cons_append, feedAux_zero_sync,
          ih 1 (buf.set 0 SYNC) cs (by omega) (by simp [hb]), feedComp_step]
      · simp only [List.cons_append, feedAux_zero_skip buf (rest ++ cs) b hs,
          feedAux_zero_skip buf rest b hs, ih 0 buf cs (by omega) hb, feedComp_step]
    · by_cases h1 : i = 1
      · subst h1
        by_cases hm : b = MASTER_ADDR
        · subst hm
          simp only [List.cons_append, feedAux_one_master,
            ih 2 (buf.set 1 MASTER_ADDR) cs (by omega) (by simp [hb]), feedComp_step]
        · by_cases hs : b = SYNC
          · subst hs
            simp only [List.cons_append, feedAux_one_sync,
              ih 1 (buf.set 0 SYNC) cs (by omega) (by simp [hb]), feedComp_step]
          · simp only [List.cons_append, feedAux_one_other buf (rest ++ cs) b hm hs,
              feedAux_one_other buf rest b hm hs, ih 0 buf cs (by omega) hb, feedComp_step]
      · have h2 : 2 ≤ i := by omega
        rcases hv : feedAux i buf (b :: rest) with ⟨r1, n1, o1⟩
        cases o1 with
        | none =>
          have hcomp := feedAux_append_copy i buf (b :: rest) cs h2 hi hb (by rw [hv])
          rw [hv] at hcomp
          rw [hcomp]
          simp [feedComp]
        | some o =>
          have hcomp := feedAux_append_copy_some i buf (b :: rest) cs h2 o (by rw [hv])
          rw [hcomp, hv]
          simp [feedComp]

/-- Driving the parser over a list of fragments is the same as one `feed` of
their concatenation. -/
lemma feedMany_eq_join (cs : List (List Nat)) : ∀ (r : ResponseReader),
    r.index ≤ 7 → r.buffer.length = 8 →
    feedMany r cs = r.feed cs.join := by
  induction cs with
  | nil =>
    intro r hi hb
    simp [feedMany, ResponseReader.feed, feedAux_nil r.index r.buffer hi]
  | cons c cs ih =>
    intro r hi hb
    have hpres := feedAux_preserves r.index r.buffer c hi hb
    have happ := feedAux_append c r.index r.buffer cs.join hi hb
    rcases hv : feedAux r.index r.buffer c with ⟨r1, n1, o1⟩
    rw [hv] at hpres happ
    cases o1 with
    | some o =>
      simp [feedMany, ResponseReader.feed, hv, happ, feedComp]
    | none =>
      have ihh := ih r1 hpres.1 hpres.2
      simp [feedMany, ResponseReader.feed, hv, ihh, happ, feedComp]

/-- C9: fragmentation invariance — feeding one complete valid 8-byte
response to a freshly positioned parser yields the same decoded result, the
same final state, and the same total consumed count (8) for every split of
the response into successive `feed` calls, because sequential `feed` calls
compose like a single `feed` of the concatenation. -/
theorem parser_fragmentation_invariance (chunks : List (List Nat)) (buf resp : List Nat)
    (hbuf : buf.length = 8) (hjoin : chunks.join = resp) (hlen : resp.length = 8)
    (h0 : resp.getD 0 0 = SYNC) (h1 : resp.getD 1 0 = MASTER_ADDR)
    (hv : crc.verify resp = true) :
    feedMany ⟨0, buf⟩ chunks = (⟨0, resp⟩, 8, some (.ok ⟨resp⟩)) := by
  rw [feedMany_eq_join chunks ⟨0, buf⟩ (by simp) (by simpa using hbuf)]
  show feedAux 0 buf chunks.join = _
  rw [hjoin]
  exact feed_valid_resp buf resp hbuf hlen h0 h1 hv

/-- C9 (witness): instantiation of `parser_fragmentation_invariance` at a
4-chunk split of the sample frame. -/
theorem parser_fragmentation_invariance_witness :
    feedMany ⟨0, List.replicate 8 0⟩
        [[5, 255], [0, 0, 0], [0, 0], [crc.compute [5, 255, 0, 0, 0, 0, 0]]] =
      (⟨0, sampleFrame⟩, 8, some (.ok ⟨sampleFrame⟩)) :=
  parser_fragmentation_invariance _ _ sampleFrame (by decide) (by decide) (by decide)
    (by decide) (by decide) (by decide)

/-- Evaluation of `Tmc2209::read_response` on a queue holding a valid 8-byte
frame: it returns the decoded frame and the driver with the frame consumed
and the reader holding the frame at cursor 0. -/
lemma read_response_ok (d : Tmc2209) (resp rest : List Nat)
    (hrx : d.uart.rx = resp ++ rest) (hrdr : d.reader.buffer.length = 8)
    (hlen : resp.length = 8) (h0 : resp.getD 0 0 = SYNC)
    (h1 : resp.getD 1 0 = MASTER_ADDR) (hv : crc.verify resp = true) :
    Tmc2209.read_response d =
      .ok (⟨resp⟩, ⟨⟨rest, d.uart.tx⟩, d.slave_addr, ⟨0, resp⟩⟩) := by
  have h8 : 8 ≤ d.uart.rx.length := by
    rw [hrx]
    simp [hlen]
  have htk : d.uart.rx.take 8 = resp := by
    rw [hrx]
    exact List.take_left' hlen
  have hdp : d.uart.rx.drop 8 = rest := by
    rw [hrx]
    exact List.drop_left' hlen
  have hfeed := feed_valid_resp d.reader.buffer resp hrdr hlen h0 h1 hv
  simp only [Tmc2209.read_response, Uart.read_exact, if_pos h8, htk, hdp,
    ResponseReader.reset, ResponseReader.feed, hfeed]

/-- Evaluation of `Tmc2209::read_register` on a queue holding a 4-byte echo
followed by a valid reply frame: the result is `AddressMismatch` exactly
when the reply's register address differs from the requested one, and the
decoded payload otherwise. -/
lemma read_register_eval (d : Tmc2209) (echo resp rest : List Nat) (expected : Nat)
    (hrx : d.uart.rx = echo ++ resp ++ rest) (hecho : echo.length = 4)
    (hrdr : d.reader.buffer.length = 8) (hlen : resp.length = 8)
    (h0 : resp.getD 0 0 = SYNC) (h1 : resp.getD 1 0 = MASTER_ADDR)
    (hv : crc.verify resp = true) :
    Tmc2209.read_register d expected =
      if resp.getD 2 0 ≠ expected then
        .error (.AddressMismatch expected (resp.getD 2 0))
      else
        .ok (ReadResponse.data ⟨resp⟩,
          ⟨⟨rest, d.uart.tx ++ (ReadRequest.new d.slave_addr expected).bytes⟩,
            d.slave_addr, ⟨0, resp⟩⟩) := by
  have h4 : 4 ≤ d.uart.rx.length := by
    rw [hrx]
    simp [hecho]
  have ht4 : d.uart.rx.take 4 = echo := by
    rw [hrx, List.append_assoc]
    exact List.take_left' hecho
  have hd4 : d.uart.rx.drop 4 = resp ++ rest := by
    rw [hrx, List.append_assoc]
    exact List.drop_left' hecho
  have hresp := read_response_ok
    ⟨⟨resp ++ rest, d.uart.tx ++ (ReadRequest.new d.slave_addr expected).bytes⟩,
      d.slave_addr, d.reader⟩ resp rest rfl hrdr hlen h0 h1 hv
  simp only [Tmc2209.read_register, Uart.write_all, Uart.flush, Uart.read_exact,
    if_pos h4, ht4, hd4, hresp, ReadResponse.reg_addr, ReadResponse.data]

/-- Evaluation of `Tmc2209::read_raw` on the same queue shape: the decoded
payload is returned unconditionally — the source compares no register
address in this entry point. -/
lemma read_raw_eval (d : Tmc2209) (echo resp rest : List Nat) (reg_addr : Nat)
    (hrx : d.uart.rx = echo ++ resp ++ rest) (hecho : echo.length = 4)
    (hrdr : d.reader.buffer.length = 8) (hlen : resp.length = 8)
    (h0 : resp.getD 0 0 = SYNC) (h1 : resp.getD 1 0 = MASTER_ADDR)
    (hv : crc.verify resp = true) :
    Tmc2209.read_raw d reg_addr =
      .ok (ReadResponse.data ⟨resp⟩,
        ⟨⟨rest, d.uart.tx ++ (ReadRequest.from_raw_addr d.slave_addr reg_addr).bytes⟩,
          d.slave_addr, ⟨0, resp⟩⟩) := by
  have h4 : 4 ≤ d.uart.rx.length := by
    rw [hrx]
    simp [hecho]
  have ht4 : d.uart.rx.take 4 = echo := by
    rw [hrx, List.append_assoc]
    exact List.take_left' hecho
  have hd4 : d.uart.rx.drop 4 = resp ++ rest := by
    rw [hrx, List.append_assoc]
    exact List.drop_left' hecho
  have hresp := read_response_ok
    ⟨⟨resp ++ rest, d.uart.tx ++ (ReadRequest.from_raw_addr d.slave_addr reg_addr).bytes⟩,
      d.slave_addr, d.reader⟩ resp rest rfl hrdr hlen h0 h1 hv
  simp only [Tmc2209.read_raw, Uart.write_all, Uart.flush, Uart.read_exact,
    if_pos h4, ht4, hd4, hresp, ReadResponse.data]

/-- C2 (counterexample): the claim says `read_raw` also compares the decoded
register address against the requested one, but requesting raw address 0
over a transport whose reply frame carries register address 1 makes
`read_raw` succeed with the payload instead of failing with
`AddressMismatch`. -/
theorem read_raw_no_address_check_counterexample :
    Tmc2209.read_raw ⟨⟨[0, 0, 0, 0] ++ mismatchFrame, []⟩, 0, ⟨0, List.replicate 8 0⟩⟩ 0 =
      .ok (0, ⟨⟨[], (ReadRequest.from_raw_addr 0 0).bytes⟩, 0, ⟨0, mismatchFrame⟩⟩) ∧
    mismatchFrame.getD 2 0 = 1 ∧ (1 : Nat) ≠ 0 := by
  decide

/-- C2 (amended): after the reply datagram is decoded, the typed entry point
`read_register` compares the decoded register address against the requested
one and fails with the distinct error `AddressMismatch {expected, actual}`
(not a checksum error) on mismatch; the raw entry point `read_raw` performs
no such comparison and returns the decoded payload whatever the reply's
register address. -/
theorem read_address_check_amended (d : Tmc2209) (echo resp rest : List Nat)
    (hrx : d.uart.rx = echo ++ resp ++ rest) (hecho : echo.length = 4)
    (hrdr : d.reader.buffer.length = 8) (hlen : resp.length = 8)
    (h0 : resp.getD 0 0 = SYNC) (h1 : resp.getD 1 0 = MASTER_ADDR)
    (hv : crc.verify resp = true) :
    (∀ expected, resp.getD 2 0 ≠ expected →
      Tmc2209.read_register d expected =
        .error (.AddressMismatch expected (resp.getD 2 0))) ∧
    (∀ reg_addr, ∃ d2, Tmc2209.read_raw d reg_addr =
        .ok (ReadResponse.data ⟨resp⟩, d2)) := by
  constructor
  · intro expected hne
    rw [read_register_eval d echo resp rest expected hrx hecho hrdr hlen h0 h1 hv,
      if_pos hne]
  · intro reg_addr
    exact ⟨_, read_raw_eval d echo resp rest reg_addr hrx hecho hrdr hlen h0 h1 hv⟩

/-- C2 (witness): instantiation of `read_address_check_amended` at a
transport whose reply carries register address 1 while address 0 was
requested through `read_register`. -/
theorem read_address_check_amended_witness :
    Tmc2209.read_register ⟨⟨[0, 0, 0, 0] ++ mismatchFrame, []⟩, 0, ⟨0, List.replicate 8 0⟩⟩ 0 =
      .error (.AddressMismatch 0 (mismatchFrame.getD 2 0)) :=
  (read_address_check_amended _ [0, 0, 0, 0] mismatchFrame [] (by decide) (by decide)
    (by decide) (by decide) (by decide) (by decide) (by decide)).1 0 (by decide)
